import Mathlib

/-!
Shallow embedding of the mutation-scan transformation pipeline of
`src/web/zero_shot_tab.py` (VenusFactory).

Conventions of the embedding:
* Python strings are `String` / `List Char`; pandas cells that may hold
  non-string data are modelled by small inductive types.
* Floating-point scores are modelled as rationals `ℚ`; the `NaN` sentinel
  used for unset heatmap cells is modelled as `Option.none`.
* pandas dataframes are modelled as a list of column names plus a list of
  rows; the two columns the pipeline actually consumes (mutation code and
  score) are modelled directly where only they matter.
* Imperative loops become structural recursions over the row list.
-/

/-! ### Dynamic cell values and dataframes -/

/-- A pandas cell as seen by this pipeline: either a Python string or a
numeric value.  (`isinstance(m, str)` checks distinguish the two.) -/
inductive PyVal where
  | str : List Char → PyVal
  | num : ℚ → PyVal
deriving DecidableEq

/-- A raw results table: ordered column names and rows of cells. -/
structure DataFrame where
  cols : List String
  rows : List (List PyVal)
deriving DecidableEq

/-- `row[i]` with pandas positional lookup (only used at indices that were
resolved from an existing column name). -/
def cellD (row : List PyVal) (i : Nat) : PyVal := row.getD i (PyVal.str [])

/-! ### Column-resolution heuristics (`zero_shot_tab.py` lines 66-83, 145-147) -/

/-- Substring test on character lists (`sub in l`, Python `in` operator). -/
def lcContains (sub : List Char) : List Char → Bool
  | [] => sub.isEmpty
  | c :: t => sub.isPrefixOf (c :: t) || lcContains sub t

/-- `'score' in col.lower()` — case-insensitive substring test. -/
def containsScoreCI (s : String) : Bool :=
  lcContains ("score".toList) (s.toList.map Char.toLower)

/-- `next((col for col in df.columns if 'score' in col.lower()), None)`. -/
def findScoreCol (cols : List String) : Option String :=
  cols.find? containsScoreCI

/-- Outcome of the column handling at the start of
`prepare_plotly_heatmap_data` (lines 145-147): if no score-named column
exists the function returns `(None,) * 6`; otherwise it evaluates
`df['mutant']`, which raises `KeyError` when no column is named exactly
`mutant`. -/
inductive HeatmapResolve where
  | noScore
  | keyError
  | ok : String → HeatmapResolve
deriving DecidableEq

/-- Column resolution of the heatmap consumer (lines 145-147). -/
def heatmapResolveCols (cols : List String) : HeatmapResolve :=
  match findScoreCol cols with
  | none => .noScore
  | some sc => if "mutant" ∈ cols then .ok sc else .keyError

/-- Mutation-column resolution of `generate_mutation_ai_prompt`
(lines 68-74): exact `'mutant'` match, else the first column, else fail. -/
def promptMutantCol (cols : List String) : Option String :=
  if "mutant" ∈ cols then some "mutant" else cols.head?

/-- Score-column resolution of `generate_mutation_ai_prompt`
(lines 77-83): a `'score'`-containing name, else the second column, else
fail. -/
def promptScoreCol (cols : List String) : Option String :=
  match findScoreCol cols with
  | some sc => some sc
  | none => cols.get? 1

/-! ### Report Prompt Builder (`generate_mutation_ai_prompt`, lines 50-128) -/

/-- Generic first-index search (used for label-based column lookup and for
heatmap axis maps). -/
def findIdxA {α : Type} [DecidableEq α] (a : α) : List α → Option Nat
  | [] => none
  | b :: t => if b = a then some 0 else (findIdxA a t).map (· + 1)

/-- The rendered bottom slice of the prompt: either the explicit `"N/A"`
marker (when the slice is empty) or the extracted rows. -/
inductive BottomSlice where
  | na
  | rows : List (PyVal × PyVal) → BottomSlice
deriving DecidableEq

/-- The data interpolated into the analysis prompt: resolved column names,
the top slice and the bottom slice, each projected to
(mutation cell, score cell) pairs as by `df[[mutant_col, score_col]]`. -/
structure PromptSummary where
  mutantCol : String
  scoreCol : String
  top : List (PyVal × PyVal)
  bottom : BottomSlice
deriving DecidableEq

/-- `top_count` (lines 86-92): all rows below 5 rows, else
`max(1, int(num_rows * 0.05))`; the float scaling `int(n * 0.05)` equals
`n * 5 / 100` exactly for every table size in range. -/
def topCount (n : Nat) : Nat := if n < 5 then n else max 1 (n * 5 / 100)

/-- `lowest_count` (lines 86-92): zero below 5 rows, else the same 5%. -/
def lowestCount (n : Nat) : Nat := if n < 5 then 0 else max 1 (n * 5 / 100)

/-- `lowest_mutations` (line 96): the last `lowest_count` rows when that
count is positive, else the empty table. -/
def lowestRows (rows : List (List PyVal)) : List (List PyVal) :=
  if 0 < lowestCount rows.length then
    rows.drop (rows.length - lowestCount rows.length)
  else []

/-- `generate_mutation_ai_prompt` (lines 66-100): resolve the two columns,
slice the top and bottom 5%, and render the bottom slice as `"N/A"` when
it is empty.  Returns `none` on the two error paths. -/
def generateMutationAiPrompt (df : DataFrame) : Option PromptSummary :=
  match promptMutantCol df.cols with
  | none => none
  | some mc =>
    match promptScoreCol df.cols with
    | none => none
    | some sc =>
      some { mutantCol := mc, scoreCol := sc,
             top := (df.rows.take (topCount df.rows.length)).map
               (fun r => (cellD r ((findIdxA mc df.cols).getD 0),
                          cellD r ((findIdxA sc df.cols).getD 0))),
             bottom :=
               if (lowestRows df.rows).isEmpty then .na
               else .rows ((lowestRows df.rows).map
                 (fun r => (cellD r ((findIdxA mc df.cols).getD 0),
                            cellD r ((findIdxA sc df.cols).getD 0)))) }

/-! ### Credential resolution and bundle contents (lines 33-38, 265-295) -/

/-- Python `str.strip()`. -/
def pyStrip (s : String) : String :=
  ⟨((s.toList.dropWhile Char.isWhitespace).reverse.dropWhile Char.isWhitespace).reverse⟩

/-- The provider → environment-variable table (line 35). -/
def envVarMap (p : String) : Option String :=
  if p = "DeepSeek" then some "DEEPSEEK_API_KEY" else none

/-- `get_api_key` (lines 33-38).  `env` models `os.getenv`; an environment
variable set to the empty string is falsy in Python and is skipped. -/
def getApiKey (env : String → Option String) (provider userKey : String) :
    Option String :=
  if pyStrip userKey ≠ "" then some (pyStrip userKey)
  else
    match envVarMap provider with
    | some name =>
      match env name with
      | some v => if v ≠ "" then some v else none
      | none => none
    | none => none

/-- The placeholder report written when no credential resolves (line 270). -/
def noKeyPlaceholder : String :=
  "❌ No API key found. Please provide one or set the environment variable."

/-- The AI-summary text produced by `handle_prediction_with_ai`
(lines 265-274); the external chat call is the opaque `apiResp`. -/
def aiSummaryOf (env : String → Option String) (enableAi : Bool)
    (provider userKey apiResp : String) : String :=
  if enableAi then
    match getApiKey env provider userKey with
    | none => noKeyPlaceholder
    | some _ => apiResp
  else "AI analysis was not enabled."

/-- Python `str.startswith`. -/
def pyStartsWith (s pre : String) : Bool := pre.toList.isPrefixOf s.toList

/-- The archive-entry names of `files_to_zip` (lines 288-292): the CSV and
the heatmap always, plus the AI report unless the summary is an error or
the disabled marker. -/
def bundleEntries (aiSummary : String) : List String :=
  if !(pyStartsWith aiSummary "❌") &&
     !(pyStartsWith aiSummary "AI analysis was not enabled") then
    ["prediction_results.csv", "prediction_heatmap.html", "AI_Analysis_Report.md"]
  else
    ["prediction_results.csv", "prediction_heatmap.html"]

/-! ### Mutation codes and the validity filter (line 147) -/

/-- The `mutant` cell of a row: a Python string or some non-string value
(e.g. `NaN`), distinguished by the `isinstance(m, str)` check. -/
inductive MutCell where
  | str : List Char → MutCell
  | nonStr : MutCell
deriving DecidableEq

/-- One row of the table seen by the heatmap pipeline after the score
column has been resolved: the `mutant` cell and the score value. -/
structure MRow where
  mutant : MutCell
  score : ℚ
deriving DecidableEq

/-- The character content of a `mutant` cell (junk for non-strings; only
ever used on rows that passed the validity filter). -/
def mstr : MutCell → List Char
  | .str m => m
  | .nonStr => []

/-- `m[1:-1]`. -/
def middle (m : List Char) : List Char := (m.drop 1).dropLast

/-- `len(m) > 2 and m[0] != m[-1] and m[1:-1].isdigit()`. -/
def validCode (m : List Char) : Bool :=
  decide (2 < m.length) && decide (m.headD ' ' ≠ m.getLastD ' ') &&
    (middle m).all Char.isDigit

/-- The full row filter of line 147 (including `isinstance(m, str)`). -/
def rvalid (r : MRow) : Bool :=
  match r.mutant with
  | .str m => validCode m
  | .nonStr => false

/-- Decimal value of a digit string, as `int(...)` on an `isdigit` string. -/
def digitsToNat (l : List Char) : Nat :=
  l.foldl (fun a c => 10 * a + (c.toNat - 48)) 0

/-- `position = int(mutant[1:-1])` (line 151). -/
def rpos (r : MRow) : Nat := digitsToNat (middle (mstr r.mutant))

/-- `wild_type = mutant[0]` (line 158). -/
def rwt (r : MRow) : Char := (mstr r.mutant).headD '?'

/-- `substitution = mutant[-1]` (line 163). -/
def rsub (r : MRow) : Char := (mstr r.mutant).getLastD '?'

/-! ### Rank-percentile binning (lines 149-150) -/

/-- The subtable of rows passing the validity filter, in input order. -/
def validRows (rows : List MRow) : List MRow := rows.filter rvalid

/-- The score column of a row list. -/
def scoresOf (v : List MRow) : List ℚ := v.map (·.score)

/-- `rank(method='min', ascending=False)`: competition rank, one plus the
number of strictly greater scores in the table. -/
def rankOf (scores : List ℚ) (s : ℚ) : Nat :=
  1 + (scores.filter (fun t => s < t)).length

/-- Executable floor of a rational (kernel-evaluable form of `⌊q⌋`). -/
def ratFloor (q : ℚ) : ℤ := q.num / (q.den : ℤ)

/-- Executable ceiling of a rational (kernel-evaluable form of `⌈q⌉`). -/
def ratCeil (q : ℚ) : ℤ := -ratFloor (-q)

/-- Round-half-to-even on a rational, as Python `round` / numpy. -/
def roundHalfEven (q : ℚ) : ℤ :=
  if q - ratFloor q < 1 / 2 then ratFloor q
  else if 1 / 2 < q - ratFloor q then ratFloor q + 1
  else if ratFloor q % 2 = 0 then ratFloor q else ratFloor q + 1

/-- `round(score, 3)` (line 166). -/
def round3 (q : ℚ) : ℚ := ((roundHalfEven (q * 1000) : ℤ) : ℚ) / 1000

/-- `11 - np.ceil(rank / (n / 10)).clip(upper=10)` (line 150).  The `clip`
also absorbs the floating-point overshoot of the float division, so the
rational model agrees with the float computation. -/
def binOf (n rank : Nat) : ℚ :=
  ((11 - min (ratCeil ((rank : ℚ) / ((n : ℚ) / 10))) 10 : ℤ) : ℚ)

/-- The (percentile bin, rank, rounded score) triple written for one row
(line 166); ranks and bins are computed against the full valid table `v`. -/
def rowVal (v : List MRow) (r : MRow) : ℚ × ℚ × ℚ :=
  (binOf v.length (rankOf (scoresOf v) r.score),
   (rankOf (scoresOf v) r.score : ℚ),
   round3 r.score)

/-! ### Axes, truncation, and matrix fill (lines 152-167) -/

/-- The 20 canonical amino acids in heatmap column order (line 156). -/
def xLabels : List Char := "ACDEFGHIKLMNPQRSTVWY".toList

/-- `sorted(valid['position'].unique())` (line 152). -/
def allPositions (v : List MRow) : List Nat :=
  List.insertionSort (· ≤ ·) ((v.map rpos).dedup)

/-- `sorted_positions[:max_residues]` when a cap is given (lines 153-154). -/
def retainedPositions (v : List MRow) (maxR : Option Nat) : List Nat :=
  match maxR with
  | none => allPositions v
  | some k => (allPositions v).take k

/-- `valid[valid['position'].isin(sorted_positions)]` when a cap is given
(line 155). -/
def filteredRows (v : List MRow) (maxR : Option Nat) : List MRow :=
  match maxR with
  | none => v
  | some k => v.filter (fun r => decide (rpos r ∈ (allPositions v).take k))

/-- The last element of a list satisfying `p`, i.e. the surviving value of
repeated overwriting in input order (dict comprehensions, matrix fill). -/
def lastMatch {α : Type} (p : α → Bool) : List α → Option α
  | [] => none
  | a :: t =>
    match lastMatch p t with
    | some b => some b
    | none => if p a then some a else none

/-- The matrix-fill loop of lines 162-166: iterate the rows in order and,
whenever both axis maps hit, overwrite the addressed cell of the shared
accumulator with the row's triple. -/
def fillCells (rv : MRow → ℚ × ℚ × ℚ) (ym : Nat → Option Nat)
    (xm : Char → Option Nat) :
    List MRow → (Nat → Nat → Option (ℚ × ℚ × ℚ)) →
      Nat → Nat → Option (ℚ × ℚ × ℚ)
  | [], acc => acc
  | r :: rest, acc =>
    match ym (rpos r), xm (rsub r) with
    | some yi, some xi =>
      fillCells rv ym xm rest
        (fun i j => if i = yi ∧ j = xi then some (rv r) else acc i j)
    | some _, none => fillCells rv ym xm rest acc
    | none, _ => fillCells rv ym xm rest acc

/-- The final content of cell `(i, j)` of the three matrices, as a single
triple-valued map (matrices start at the `NaN` sentinel, modelled `none`). -/
def heatmapCells (rows : List MRow) (maxR : Option Nat) :
    Nat → Nat → Option (ℚ × ℚ × ℚ) :=
  let v := validRows rows
  fillCells (rowVal v) (fun p => findIdxA p (retainedPositions v maxR))
    (fun c => findIdxA c xLabels) (filteredRows v maxR) (fun _ _ => none)

/-- `wt_map = {pos: mut[0] for pos, mut in zip(...)}` (line 158): the last
row observed at a position wins. -/
def wtMapF (f : List MRow) (p : Nat) : Option Char :=
  (lastMatch (fun r => rpos r == p) f).map rwt

/-- `y_labels` (line 159). -/
def yLabelsOf (f : List MRow) (ps : List Nat) : List (List Char) :=
  ps.map (fun p => ((wtMapF f p).getD '?') :: (Nat.repr p).toList)

/-- Materialise a cell map into a dense `nrows × ncols` matrix. -/
def toMatrix (f : Nat → Nat → Option ℚ) (nrows ncols : Nat) :
    List (List (Option ℚ)) :=
  (List.range nrows).map (fun i => (List.range ncols).map (fun j => f i j))

/-- Cell access on a dense matrix (out-of-range reads the sentinel). -/
def mcell (m : List (List (Option ℚ))) (i j : Nat) : Option ℚ :=
  (m.getD i []).getD j none

/-- The populated return value of `prepare_plotly_heatmap_data`:
`(x_labels, y_labels, z_data, rank_matrix, score_matrix)` (the resolved
score-column name is handled at the dataframe level). -/
structure HeatmapData where
  x : List Char
  y : List (List Char)
  z : List (List (Option ℚ))
  rank : List (List (Option ℚ))
  score : List (List (Option ℚ))
deriving DecidableEq

/-- The outcome of `prepare_plotly_heatmap_data` after column resolution:
the degenerate empty-table return of line 148, or populated data. -/
inductive HeatmapOut where
  | emptyData
  | data : HeatmapData → HeatmapOut
deriving DecidableEq

/-- `prepare_plotly_heatmap_data` (lines 147-167) on a table whose score
column has been resolved. -/
def prepareHeatmap (rows : List MRow) (maxR : Option Nat) : HeatmapOut :=
  if (validRows rows).isEmpty then .emptyData
  else
    .data { x := xLabels,
            y := yLabelsOf (filteredRows (validRows rows) maxR)
                   (retainedPositions (validRows rows) maxR),
            z := toMatrix
                   (fun i j => (heatmapCells rows maxR i j).map (fun t => t.1))
                   (retainedPositions (validRows rows) maxR).length xLabels.length,
            rank := toMatrix
                   (fun i j => (heatmapCells rows maxR i j).map (fun t => t.2.1))
                   (retainedPositions (validRows rows) maxR).length xLabels.length,
            score := toMatrix
                   (fun i j => (heatmapCells rows maxR i j).map (fun t => t.2.2))
                   (retainedPositions (validRows rows) maxR).length xLabels.length }

/-- `y_labels` of an outcome (`[]` on the empty return). -/
def outYLabels : HeatmapOut → List (List Char)
  | .emptyData => []
  | .data d => d.y

/-- `z_data` of an outcome (`np.array([[]])` on the empty return). -/
def outZ : HeatmapOut → List (List (Option ℚ))
  | .emptyData => [[]]
  | .data d => d.z

/-- `rank_matrix` of an outcome. -/
def outRank : HeatmapOut → List (List (Option ℚ))
  | .emptyData => [[]]
  | .data d => d.rank

/-- `score_matrix` of an outcome. -/
def outScore : HeatmapOut → List (List (Option ℚ))
  | .emptyData => [[]]
  | .data d => d.score

/-- Descending sort of the score column (the caller-side sort order the
spec's ranking properties are phrased against). -/
def sortDesc (l : List ℚ) : List ℚ := List.insertionSort (· ≥ ·) l

/-- All valid rows observed at one position carry the same wild-type
letter (hypothesis of the permutation-invariance property). -/
def wtConsistent (rows : List MRow) : Prop :=
  ∀ r ∈ validRows rows, ∀ s ∈ validRows rows, rpos r = rpos s → rwt r = rwt s

/-- No two valid rows address the same (position, substitution) cell
(hypothesis of the permutation-invariance property). -/
def pairsDistinct (rows : List MRow) : Prop :=
  (validRows rows).Pairwise (fun r s => ¬(rpos r = rpos s ∧ rsub r = rsub s))

/-! ### Concrete tables used to instantiate the properties -/

/-- The three-row table of the spec's end-to-end scenario A:
`M1A` score 0.9, `M1C` score 0.1, `A2K` score 0.9. -/
def exA : List MRow :=
  [⟨.str "M1A".toList, 9/10⟩, ⟨.str "M1C".toList, 1/10⟩, ⟨.str "A2K".toList, 9/10⟩]

/-- The same table with the two position-1 rows swapped. -/
def exASwap : List MRow :=
  [⟨.str "M1C".toList, 1/10⟩, ⟨.str "M1A".toList, 9/10⟩, ⟨.str "A2K".toList, 9/10⟩]

/-- A ten-row table with distinct scores, best first. -/
def ex10 : List MRow :=
  [⟨.str "A1C".toList, 20⟩, ⟨.str "A1D".toList, 19⟩, ⟨.str "A1E".toList, 18⟩,
   ⟨.str "A1F".toList, 17⟩, ⟨.str "A1G".toList, 16⟩, ⟨.str "A1H".toList, 15⟩,
   ⟨.str "A1I".toList, 14⟩, ⟨.str "A1K".toList, 13⟩, ⟨.str "A1L".toList, 12⟩,
   ⟨.str "A1M".toList, 11⟩]

/-- A one-row table. -/
def exB : List MRow := [⟨.str "A1C".toList, 1⟩]

/-- The single row of `exB`. -/
def rB : MRow := ⟨.str "A1C".toList, 1⟩

/-- Two rows at the same position that disagree on the wild-type letter:
first observed `A1C`, last observed `S1T`. -/
def ex5 : List MRow := [⟨.str "A1C".toList, 9/10⟩, ⟨.str "S1T".toList, 1/10⟩]

/-- The last-observed position-1 row of `ex5`. -/
def r5S : MRow := ⟨.str "S1T".toList, 1/10⟩

/-- A raw table with 100 rows and resolvable columns. -/
def ex100 : DataFrame := ⟨["mutant", "score"], List.replicate 100 [.num 0, .num 1]⟩

/-- A raw table with 3 rows and resolvable columns. -/
def ex3 : DataFrame := ⟨["mutant", "score"], List.replicate 3 [.num 0, .num 1]⟩

/-- The prompt data extracted from `ex100`. -/
def s100 : PromptSummary :=
  ⟨"mutant", "score", List.replicate 5 (.num 0, .num 1),
   .rows (List.replicate 5 (.num 0, .num 1))⟩

/-- The prompt data extracted from `ex3`. -/
def s3 : PromptSummary :=
  ⟨"mutant", "score", List.replicate 3 (.num 0, .num 1), .na⟩

/-- An environment with no variables set. -/
def env0 : String → Option String := fun _ => none

/-! ### Supporting lemmas -/

theorem ratFloor_eq (q : ℚ) : ratFloor q = ⌊q⌋ := by
  rw [Rat.floor_def]; rfl

theorem ratCeil_eq (q : ℚ) : ratCeil q = ⌈q⌉ := by
  unfold ratCeil
  rw [ratFloor_eq, Int.floor_neg, neg_neg]

theorem findIdxA_get {α : Type} [DecidableEq α] (a : α) (l : List α) (i : Nat)
    (h : findIdxA a l = some i) : l.get? i = some a := by
  induction l generalizing i with
  | nil => simp [findIdxA] at h
  | cons b t ih =>
    unfold findIdxA at h
    by_cases hb : b = a
    · rw [if_pos hb] at h
      cases h
      simp [hb]
    · rw [if_neg hb] at h
      rw [Option.map_eq_some'] at h
      obtain ⟨i2, h2, hi⟩ := h
      subst hi
      simpa using ih i2 h2

theorem findIdxA_lt_length {α : Type} [DecidableEq α] (a : α) (l : List α) (i : Nat)
    (h : findIdxA a l = some i) : i < l.length := by
  have := findIdxA_get a l i h
  exact List.get?_eq_some.mp this |>.1

theorem findIdxA_take {α : Type} [DecidableEq α] (a : α) (l : List α) (k i : Nat) :
    findIdxA a (l.take k) = some i ↔ (findIdxA a l = some i ∧ i < k) := by
  induction l generalizing k i with
  | nil => simp [findIdxA]
  | cons b t ih =>
    cases k with
    | zero => simp [findIdxA]
    | succ k2 =>
      rw [List.take_succ_cons]
      unfold findIdxA
      by_cases hb : b = a
      · rw [if_pos hb, if_pos hb]
        constructor
        · intro h
          cases h
          exact ⟨rfl, by omega⟩
        · intro h
          exact h.1
      · rw [if_neg hb, if_neg hb]
        simp only [Option.map_eq_some']
        constructor
        · rintro ⟨i2, h2, rfl⟩
          have := (ih k2 i2).mp h2
          exact ⟨⟨i2, this.1, rfl⟩, by omega⟩
        · rintro ⟨⟨i2, h2, rfl⟩, hlt⟩
          exact ⟨i2, (ih k2 i2).mpr ⟨h2, by omega⟩, rfl⟩

theorem lastMatch_cons {α : Type} (p : α → Bool) (b : α) (t : List α) :
    lastMatch p (b :: t) =
      match lastMatch p t with
      | some c => some c
      | none => if p b then some b else none := rfl

theorem lastMatch_eq_none {α : Type} (p : α → Bool) (l : List α) :
    lastMatch p l = none ↔ ∀ a ∈ l, p a = false := by
  induction l with
  | nil => simp [lastMatch]
  | cons b t ih =>
    rw [lastMatch_cons]
    cases hl : lastMatch p t with
    | some c =>
      simp only []
      constructor
      · intro h
        cases h
      · intro h
        have h2 : lastMatch p t = none := ih.mpr (fun a ha => h a (by simp [ha]))
        rw [h2] at hl
        cases hl
    | none =>
      have hlt : ∀ a ∈ t, p a = false := ih.mp hl
      show (if p b = true then some b else none) = none ↔ ∀ a ∈ b :: t, p a = false
      by_cases hp : p b
      · simp only [if_pos hp]
        constructor
        · intro h
          cases h
        · intro h
          have := h b (by simp)
          rw [hp] at this
          cases this
      · simp only [if_neg hp]
        simp only [Bool.not_eq_true] at hp
        constructor
        · intro _ a ha
          rcases List.mem_cons.mp ha with rfl | ha2
          · exact hp
          · exact hlt a ha2
        · intro _
          trivial

theorem lastMatch_mem {α : Type} (p : α → Bool) (l : List α) (a : α)
    (h : lastMatch p l = some a) : a ∈ l ∧ p a = true := by
  induction l with
  | nil => cases h
  | cons b t ih =>
    rw [lastMatch_cons] at h
    cases hl : lastMatch p t with
    | some c =>
      rw [hl] at h
      cases h
      have := ih hl
      exact ⟨by simp [this.1], this.2⟩
    | none =>
      rw [hl] at h
      by_cases hp : p b
      · rw [if_pos hp] at h
        cases h
        exact ⟨by simp, hp⟩
      · rw [if_neg hp] at h
        cases h

theorem lastMatch_isSome_of_mem {α : Type} (p : α → Bool) (l : List α) (a : α)
    (ha : a ∈ l) (hp : p a = true) : (lastMatch p l).isSome := by
  cases h : lastMatch p l with
  | none =>
    rw [lastMatch_eq_none] at h
    exact absurd (h a ha) (by simp [hp])
  | some b => rfl

theorem lastMatch_filter {α : Type} (p q : α → Bool) (l : List α) :
    lastMatch p (l.filter q) = lastMatch (fun a => p a && q a) l := by
  induction l with
  | nil => rfl
  | cons b t ih =>
    rw [lastMatch_cons]
    by_cases hq : q b
    · rw [List.filter_cons_of_pos hq, lastMatch_cons, ih]
      cases lastMatch (fun a => p a && q a) t with
      | some c => rfl
      | none => simp [hq]
    · rw [List.filter_cons_of_neg (by simp [hq]), ih]
      cases lastMatch (fun a => p a && q a) t with
      | some c => rfl
      | none => simp [hq]

theorem lastMatch_congr {α : Type} (p q : α → Bool) (l : List α)
    (h : ∀ a, p a = q a) : lastMatch p l = lastMatch q l := by
  have : p = q := funext h
  rw [this]

theorem fillCells_lookup (rv : MRow → ℚ × ℚ × ℚ) (ym : Nat → Option Nat)
    (xm : Char → Option Nat) (l : List MRow)
    (acc : Nat → Nat → Option (ℚ × ℚ × ℚ)) (i j : Nat) :
    fillCells rv ym xm l acc i j =
      match lastMatch
          (fun r => ym (rpos r) == some i && xm (rsub r) == some j) l with
      | some r => some (rv r)
      | none => acc i j := by
  induction l generalizing acc with
  | nil => rfl
  | cons r t ih =>
    rw [lastMatch_cons]
    cases hy : ym (rpos r) with
    | none =>
      simp only [fillCells, hy]
      rw [ih]
      cases lastMatch (fun r => ym (rpos r) == some i && xm (rsub r) == some j) t with
      | some c => rfl
      | none => simp [hy]
    | some yi =>
      cases hx : xm (rsub r) with
      | none =>
        simp only [fillCells, hy, hx]
        rw [ih]
        cases lastMatch (fun r => ym (rpos r) == some i && xm (rsub r) == some j) t with
        | some c => rfl
        | none => simp [hy, hx]
      | some xi =>
        simp only [fillCells, hy, hx]
        rw [ih]
        cases lastMatch (fun r => ym (rpos r) == some i && xm (rsub r) == some j) t with
        | some c => rfl
        | none =>
          simp only [hy, hx]
          by_cases h1 : i = yi
          · by_cases h2 : j = xi
            · subst h1
              subst h2
              simp
            · subst h1
              simp [Ne.symm h2]
              exact fun h => absurd h h2
          · simp [Ne.symm h1]
            exact fun h => absurd h h1

theorem heatmapCells_lookup (rows : List MRow) (maxR : Option Nat) (i j : Nat) :
    heatmapCells rows maxR i j =
      match lastMatch (fun r =>
          findIdxA (rpos r) (retainedPositions (validRows rows) maxR) == some i &&
          findIdxA (rsub r) xLabels == some j)
          (filteredRows (validRows rows) maxR) with
      | some r => some (rowVal (validRows rows) r)
      | none => none := by
  unfold heatmapCells
  rw [fillCells_lookup]

theorem mcell_toMatrix (f : Nat → Nat → Option ℚ) (n m i j : Nat) :
    mcell (toMatrix f n m) i j = if i < n ∧ j < m then f i j else none := by
  unfold mcell toMatrix
  simp only [List.getD_eq_getElem?_getD, List.getElem?_map]
  by_cases hi : i < n
  · rw [List.getElem?_range hi]
    by_cases hj : j < m
    · simp only [Option.map_some', Option.getD_some, List.getElem?_map,
        List.getElem?_range hj]
      rw [if_pos ⟨hi, hj⟩]
    · have hj2 : (List.range m).length ≤ j := by
        rw [List.length_range]
        omega
      simp only [Option.map_some', Option.getD_some, List.getElem?_map,
        List.getElem?_eq_none hj2]
      simp [hj]
  · have hi2 : (List.range n).length ≤ i := by
      rw [List.length_range]
      omega
    rw [List.getElem?_eq_none hi2]
    simp [hi]

theorem mcell_degenerate (i j : Nat) : mcell [[]] i j = none := by
  unfold mcell
  cases i with
  | zero => cases j <;> rfl
  | succ k => rfl

theorem outZ_data (rows : List MRow) (maxR : Option Nat)
    (h : (validRows rows).isEmpty = false) :
    outZ (prepareHeatmap rows maxR) =
      toMatrix (fun i j => (heatmapCells rows maxR i j).map (fun t => t.1))
        (retainedPositions (validRows rows) maxR).length xLabels.length := by
  unfold prepareHeatmap outZ
  rw [if_neg (by simp [h])]

theorem outRank_data (rows : List MRow) (maxR : Option Nat)
    (h : (validRows rows).isEmpty = false) :
    outRank (prepareHeatmap rows maxR) =
      toMatrix (fun i j => (heatmapCells rows maxR i j).map (fun t => t.2.1))
        (retainedPositions (validRows rows) maxR).length xLabels.length := by
  unfold prepareHeatmap outRank
  rw [if_neg (by simp [h])]

theorem outScore_data (rows : List MRow) (maxR : Option Nat)
    (h : (validRows rows).isEmpty = false) :
    outScore (prepareHeatmap rows maxR) =
      toMatrix (fun i j => (heatmapCells rows maxR i j).map (fun t => t.2.2))
        (retainedPositions (validRows rows) maxR).length xLabels.length := by
  unfold prepareHeatmap outScore
  rw [if_neg (by simp [h])]

theorem outYLabels_data (rows : List MRow) (maxR : Option Nat)
    (h : (validRows rows).isEmpty = false) :
    outYLabels (prepareHeatmap rows maxR) =
      yLabelsOf (filteredRows (validRows rows) maxR)
        (retainedPositions (validRows rows) maxR) := by
  unfold prepareHeatmap outYLabels
  rw [if_neg (by simp [h])]

theorem mem_filteredRows (v : List MRow) (maxR : Option Nat) (r : MRow)
    (h : r ∈ filteredRows v maxR) : r ∈ v := by
  cases maxR with
  | none => exact h
  | some k => exact List.mem_of_mem_filter h

theorem filter_gt_length_mono (l : List ℚ) (s1 s2 : ℚ) (h : s2 ≤ s1) :
    (l.filter (fun t => s1 < t)).length ≤ (l.filter (fun t => s2 < t)).length := by
  induction l with
  | nil => simp
  | cons a t ih =>
    by_cases h1 : s1 < a
    · rw [List.filter_cons_of_pos (by simp [h1]),
        List.filter_cons_of_pos (by simp [lt_of_le_of_lt h h1])]
      simpa using ih
    · rw [List.filter_cons_of_neg (by simp [h1])]
      by_cases h2 : s2 < a
      · rw [List.filter_cons_of_pos (by simp [h2])]
        exact le_trans ih (by simp)
      · rw [List.filter_cons_of_neg (by simp [h2])]
        exact ih

theorem rankOf_mono (scores : List ℚ) (s1 s2 : ℚ) (h : s2 ≤ s1) :
    rankOf scores s1 ≤ rankOf scores s2 := by
  unfold rankOf
  have := filter_gt_length_mono scores s1 s2 h
  omega

theorem rankOf_pos (scores : List ℚ) (s : ℚ) : 1 ≤ rankOf scores s := by
  unfold rankOf
  omega

theorem rankOf_le_length (scores : List ℚ) (s : ℚ) (h : s ∈ scores) :
    rankOf scores s ≤ scores.length := by
  unfold rankOf
  have hlt : (scores.filter (fun t => s < t)).length < scores.length := by
    rcases Nat.lt_or_ge (scores.filter (fun t => s < t)).length scores.length with hc | hc
    · exact hc
    · have hle := List.length_filter_le (fun t => decide (s < t)) scores
      have heq : (scores.filter (fun t => s < t)).length = scores.length :=
        le_antisymm hle hc
      rw [List.filter_length_eq_length] at heq
      have := heq s h
      simp at this
  omega

theorem binOf_int_bounds (n rank : Nat) (hn : 1 ≤ n) (h1 : 1 ≤ rank) :
    (∃ k : ℤ, binOf n rank = (k : ℚ)) ∧ 1 ≤ binOf n rank ∧ binOf n rank ≤ 10 := by
  unfold binOf
  refine ⟨⟨_, rfl⟩, ?_, ?_⟩
  · have hc : 1 ≤ ratCeil ((rank : ℚ) / ((n : ℚ) / 10)) := by
      rw [ratCeil_eq]
      have hpos : (0 : ℚ) < (rank : ℚ) / ((n : ℚ) / 10) := by
        apply div_pos
        · exact_mod_cast h1
        · apply div_pos
          · exact_mod_cast hn
          · norm_num
      exact Int.ceil_pos.mpr hpos
    have hmin : min (ratCeil ((rank : ℚ) / ((n : ℚ) / 10))) 10 ≤ 10 := min_le_right _ _
    have : (1 : ℤ) ≤ 11 - min (ratCeil ((rank : ℚ) / ((n : ℚ) / 10))) 10 := by omega
    exact_mod_cast this
  · have hc : 1 ≤ ratCeil ((rank : ℚ) / ((n : ℚ) / 10)) := by
      rw [ratCeil_eq]
      have hpos : (0 : ℚ) < (rank : ℚ) / ((n : ℚ) / 10) := by
        apply div_pos
        · exact_mod_cast h1
        · apply div_pos
          · exact_mod_cast hn
          · norm_num
      exact Int.ceil_pos.mpr hpos
    have hmin : 1 ≤ min (ratCeil ((rank : ℚ) / ((n : ℚ) / 10))) 10 :=
      le_min hc (by norm_num)
    have : (11 - min (ratCeil ((rank : ℚ) / ((n : ℚ) / 10))) 10 : ℤ) ≤ 10 := by omega
    exact_mod_cast this

theorem binOf_rank_one (n : Nat) (hn : 10 ≤ n) : binOf n 1 = 10 := by
  unfold binOf
  have hc : ratCeil (((1 : Nat) : ℚ) / ((n : ℚ) / 10)) = 1 := by
    rw [ratCeil_eq]
    have hn0 : (0 : ℚ) < (n : ℚ) / 10 := by
      apply div_pos
      · exact_mod_cast Nat.lt_of_lt_of_le (by norm_num) hn
      · norm_num
    have hpos : (0 : ℚ) < ((1 : Nat) : ℚ) / ((n : ℚ) / 10) := by
      apply div_pos
      · norm_num
      · exact hn0
    have hle : ((1 : Nat) : ℚ) / ((n : ℚ) / 10) ≤ 1 := by
      rw [div_le_one hn0]
      rw [Nat.cast_one, le_div_iff₀ (by norm_num : (0:ℚ) < 10)]
      rw [one_mul]
      exact_mod_cast hn
    have hup : ⌈((1 : Nat) : ℚ) / ((n : ℚ) / 10)⌉ ≤ (1 : ℤ) :=
      Int.ceil_le.mpr (by exact_mod_cast hle)
    have hdown := Int.ceil_pos.mpr hpos
    omega
  rw [hc]
  norm_num

theorem findIdxA_sorted_ge (l : List ℚ) (s : ℚ) (hs : l.Sorted (· ≥ ·)) (hm : s ∈ l) :
    findIdxA s l = some ((l.filter (fun t => s < t)).length) := by
  induction l with
  | nil => cases hm
  | cons a t ih =>
    have ha : ∀ b ∈ t, a ≥ b := (List.sorted_cons.mp hs).1
    have ht : t.Sorted (· ≥ ·) := (List.sorted_cons.mp hs).2
    unfold findIdxA
    by_cases hab : a = s
    · rw [if_pos hab]
      have hfilter : (a :: t).filter (fun t2 => s < t2) = [] := by
        rw [List.filter_eq_nil_iff]
        intro b hb
        rcases List.mem_cons.mp hb with rfl | hbt
        · simp [hab]
        · have hba := ha b hbt
          rw [← hab]
          simp
          exact hba
      rw [hfilter]
      rfl
    · rw [if_neg hab]
      have hst : s ∈ t := by
        rcases List.mem_cons.mp hm with rfl | hmem
        · exact absurd rfl hab
        · exact hmem
      have hlt : s < a := lt_of_le_of_ne (ha s hst) (fun h => hab h.symm)
      rw [List.filter_cons_of_pos (by simp [hlt]), ih ht hst]
      simp [Nat.add_comm]

/-! ### Claim theorems -/

/-- C7: on every validated table, rank assignment is monotone (as score
decreases the competition rank is non-decreasing), equal scores receive
equal rank, and the rank of a row equals one plus the first index of its
score in the descending-sorted score list, i.e. the minimum rank of its
tie group. -/
theorem c7_rank_monotone_ties (rows : List MRow) (r1 r2 : MRow)
    (h1 : r1 ∈ validRows rows) (h2 : r2 ∈ validRows rows)
    (hle : r2.score ≤ r1.score) :
    rankOf (scoresOf (validRows rows)) r1.score ≤
      rankOf (scoresOf (validRows rows)) r2.score ∧
    (r1.score = r2.score →
      rankOf (scoresOf (validRows rows)) r1.score =
        rankOf (scoresOf (validRows rows)) r2.score) ∧
    (findIdxA r1.score (sortDesc (scoresOf (validRows rows)))).map (· + 1) =
      some (rankOf (scoresOf (validRows rows)) r1.score) := by
  refine ⟨rankOf_mono _ _ _ hle, fun h => by rw [h], ?_⟩
  have hmem : r1.score ∈ scoresOf (validRows rows) := List.mem_map_of_mem _ h1
  have hperm : List.Perm (sortDesc (scoresOf (validRows rows)))
      (scoresOf (validRows rows)) :=
    List.perm_insertionSort _ _
  have hsorted : (sortDesc (scoresOf (validRows rows))).Sorted (· ≥ ·) :=
    List.sorted_insertionSort _ _
  have hmem2 : r1.score ∈ sortDesc (scoresOf (validRows rows)) :=
    hperm.mem_iff.mpr hmem
  rw [findIdxA_sorted_ge _ _ hsorted hmem2]
  have hlen :
      ((sortDesc (scoresOf (validRows rows))).filter (fun t => r1.score < t)).length =
        ((scoresOf (validRows rows)).filter (fun t => r1.score < t)).length :=
    (hperm.filter _).length_eq
  rw [Option.map_some', hlen]
  unfold rankOf
  exact congrArg some (by omega)

/-- Witness for C7 at the spec's scenario-A table: the two 0.9-score rows
share rank 1 and the 0.1-score row has rank 3. -/
theorem c7_witness :
    (⟨.str "M1A".toList, 9/10⟩ : MRow) ∈ validRows exA ∧
    (⟨.str "M1C".toList, 1/10⟩ : MRow) ∈ validRows exA ∧
    (1 : ℚ)/10 ≤ 9/10 ∧
    rankOf (scoresOf (validRows exA)) ((9 : ℚ)/10) ≤
      rankOf (scoresOf (validRows exA)) ((1 : ℚ)/10) ∧
    (findIdxA ((9 : ℚ)/10) (sortDesc (scoresOf (validRows exA)))).map (· + 1) =
      some (rankOf (scoresOf (validRows exA)) ((9 : ℚ)/10)) := by
  refine ⟨by with_unfolding_all decide, by with_unfolding_all decide,
    by norm_num, ?_, ?_⟩
  · exact (c7_rank_monotone_ties exA ⟨.str "M1A".toList, 9/10⟩ ⟨.str "M1C".toList, 1/10⟩
      (by with_unfolding_all decide) (by with_unfolding_all decide) (by norm_num)).1
  · exact (c7_rank_monotone_ties exA ⟨.str "M1A".toList, 9/10⟩ ⟨.str "M1C".toList, 1/10⟩
      (by with_unfolding_all decide) (by with_unfolding_all decide) (by norm_num)).2.2

/-- C1 counterexample: on the spec's own three-row table (scores 0.9, 0.1,
0.9) the binner gives both rank-1 rows percentile bin 7, not 10, because
`11 - ceil(rank / (N/10))` with N = 3 and rank 1 is `11 - 4 = 7`. -/
theorem c1_counterexample :
    heatmapCells exA none 0 0 = some (7, 1, 9/10) ∧
    heatmapCells exA none 1 8 = some (7, 1, 9/10) ∧ (7 : ℚ) ≠ 10 :=
  ⟨by with_unfolding_all decide, by with_unfolding_all decide, by norm_num⟩

/-- C1 amended: a heatmap cell holding rank 1 holds percentile bin 10
whenever the table has at least 10 valid rows; for N < 10 the rank-1 bin
is `11 - ceil(10/N)`, which is below 10. -/
theorem c1_rank1_bin10_amended (rows : List MRow) (maxR : Option Nat) (i j : Nat)
    (b s : ℚ) (hc : heatmapCells rows maxR i j = some (b, 1, s))
    (hn : 10 ≤ (validRows rows).length) : b = 10 := by
  rw [heatmapCells_lookup] at hc
  cases hlm : lastMatch (fun r =>
      findIdxA (rpos r) (retainedPositions (validRows rows) maxR) == some i &&
      findIdxA (rsub r) xLabels == some j)
      (filteredRows (validRows rows) maxR) with
  | none =>
    rw [hlm] at hc
    cases hc
  | some r =>
    rw [hlm] at hc
    have heq : rowVal (validRows rows) r = (b, 1, s) := Option.some.inj hc
    unfold rowVal at heq
    have hb := congrArg Prod.fst heq
    have hrk := congrArg (fun t => t.2.1) heq
    simp only [] at hb hrk
    have hrank1 : rankOf (scoresOf (validRows rows)) r.score = 1 := by
      exact_mod_cast hrk
    rw [← hb, hrank1]
    exact binOf_rank_one _ hn

/-- Witness for the amended C1: a ten-row table whose best row sits at
cell (0, 1) with rank 1 and bin 10. -/
theorem c1_amended_witness :
    heatmapCells ex10 none 0 1 = some (10, 1, 20) ∧
    10 ≤ (validRows ex10).length ∧ (10 : ℚ) = 10 :=
  ⟨by with_unfolding_all decide, by with_unfolding_all decide,
    c1_rank1_bin10_amended ex10 none 0 1 10 20 (by with_unfolding_all decide)
      (by with_unfolding_all decide)⟩

/-- C4: every percentile bin written into the heatmap bin matrix is an
integer-valued rational in the closed interval [1, 10], for every table
(including N < 10, where the bin width N/10 is below 1) and any cap. -/
theorem c4_bins_integer_range (rows : List MRow) (maxR : Option Nat) (i j : Nat)
    (b : ℚ) (hb : mcell (outZ (prepareHeatmap rows maxR)) i j = some b) :
    (∃ k : ℤ, b = (k : ℚ)) ∧ 1 ≤ b ∧ b ≤ 10 := by
  cases hemp : (validRows rows).isEmpty with
  | true =>
    unfold prepareHeatmap outZ at hb
    rw [if_pos (by simp [hemp])] at hb
    rw [mcell_degenerate] at hb
    cases hb
  | false =>
    rw [outZ_data rows maxR hemp, mcell_toMatrix] at hb
    by_cases hij : i < (retainedPositions (validRows rows) maxR).length ∧
        j < xLabels.length
    · rw [if_pos hij, heatmapCells_lookup] at hb
      cases hlm : lastMatch (fun r =>
          findIdxA (rpos r) (retainedPositions (validRows rows) maxR) == some i &&
          findIdxA (rsub r) xLabels == some j)
          (filteredRows (validRows rows) maxR) with
      | none =>
        rw [hlm] at hb
        cases hb
      | some r =>
        rw [hlm] at hb
        simp only [Option.map_some'] at hb
        have hb2 : (rowVal (validRows rows) r).1 = b := Option.some.inj hb
        unfold rowVal at hb2
        simp only [] at hb2
        have hne : validRows rows ≠ [] := by
          intro h
          rw [h] at hemp
          simp at hemp
        have hn : 1 ≤ (validRows rows).length := List.length_pos.mpr hne
        rw [← hb2]
        exact binOf_int_bounds _ _ hn (rankOf_pos _ _)
    · rw [if_neg hij] at hb
      cases hb

/-- Witness for C4: the single cell of a one-row table holds bin 1, an
integer in [1, 10]. -/
theorem c4_witness :
    mcell (outZ (prepareHeatmap exB none)) 0 1 = some 1 ∧
    ((∃ k : ℤ, (1 : ℚ) = (k : ℚ)) ∧ 1 ≤ (1 : ℚ) ∧ (1 : ℚ) ≤ 10) :=
  ⟨by with_unfolding_all decide,
    c4_bins_integer_range exB none 0 1 1 (by with_unfolding_all decide)⟩

/-- C3: in the full (uncapped) build, every valid row whose position and
substituted residue have heatmap coordinates gets a non-sentinel value at
those coordinates in all three matrices, and a coordinate pair addressed
by no valid row stays at the `NaN` sentinel in all three matrices. -/
theorem c3_matrix_population (rows : List MRow) :
    (∀ r ∈ validRows rows, ∀ i j,
        findIdxA (rpos r) (retainedPositions (validRows rows) none) = some i →
        findIdxA (rsub r) xLabels = some j →
        (mcell (outZ (prepareHeatmap rows none)) i j).isSome = true ∧
        (mcell (outRank (prepareHeatmap rows none)) i j).isSome = true ∧
        (mcell (outScore (prepareHeatmap rows none)) i j).isSome = true) ∧
    (∀ i j, i < (retainedPositions (validRows rows) none).length →
        j < xLabels.length →
        (∀ r ∈ validRows rows,
          ¬((retainedPositions (validRows rows) none).get? i = some (rpos r) ∧
            xLabels.get? j = some (rsub r))) →
        mcell (outZ (prepareHeatmap rows none)) i j = none ∧
        mcell (outRank (prepareHeatmap rows none)) i j = none ∧
        mcell (outScore (prepareHeatmap rows none)) i j = none) := by
  constructor
  · intro r hr i j hi hj
    have hemp : (validRows rows).isEmpty = false := by
      cases h : (validRows rows).isEmpty
      · rfl
      · rw [List.isEmpty_iff] at h
        rw [h] at hr
        cases hr
    have hilen := findIdxA_lt_length _ _ _ hi
    have hjlen := findIdxA_lt_length _ _ _ hj
    have hpred : (findIdxA (rpos r) (retainedPositions (validRows rows) none) ==
        some i && findIdxA (rsub r) xLabels == some j) = true := by
      simp [hi, hj]
    have hmemf : r ∈ filteredRows (validRows rows) none := hr
    have hsome := lastMatch_isSome_of_mem
      (fun r2 => findIdxA (rpos r2) (retainedPositions (validRows rows) none) ==
        some i && findIdxA (rsub r2) xLabels == some j) _ _ hmemf hpred
    obtain ⟨r2, hr2⟩ := Option.isSome_iff_exists.mp hsome
    have hcells : heatmapCells rows none i j =
        some (rowVal (validRows rows) r2) := by
      rw [heatmapCells_lookup, hr2]
    refine ⟨?_, ?_, ?_⟩
    · rw [outZ_data _ _ hemp, mcell_toMatrix, if_pos ⟨hilen, hjlen⟩, hcells]
      rfl
    · rw [outRank_data _ _ hemp, mcell_toMatrix, if_pos ⟨hilen, hjlen⟩, hcells]
      rfl
    · rw [outScore_data _ _ hemp, mcell_toMatrix, if_pos ⟨hilen, hjlen⟩, hcells]
      rfl
  · intro i j hi hj habs
    cases hemp : (validRows rows).isEmpty with
    | true =>
      have h1 : prepareHeatmap rows none = .emptyData := by
        unfold prepareHeatmap
        rw [if_pos (by simp [hemp])]
      rw [h1]
      exact ⟨mcell_degenerate i j, mcell_degenerate i j, mcell_degenerate i j⟩
    | false =>
      have hnone : heatmapCells rows none i j = none := by
        rw [heatmapCells_lookup]
        have hlm : lastMatch (fun r =>
            findIdxA (rpos r) (retainedPositions (validRows rows) none) == some i &&
            findIdxA (rsub r) xLabels == some j)
            (filteredRows (validRows rows) none) = none := by
          rw [lastMatch_eq_none]
          intro r hrf
          have hrv : r ∈ validRows rows := mem_filteredRows _ _ _ hrf
          cases hp : (findIdxA (rpos r) (retainedPositions (validRows rows) none) ==
              some i && findIdxA (rsub r) xLabels == some j)
          · rfl
          · exfalso
            simp only [Bool.and_eq_true, beq_iff_eq] at hp
            exact habs r hrv ⟨findIdxA_get _ _ _ hp.1, findIdxA_get _ _ _ hp.2⟩
        rw [hlm]
      refine ⟨?_, ?_, ?_⟩
      · rw [outZ_data _ _ hemp, mcell_toMatrix, if_pos ⟨hi, hj⟩, hnone]
        rfl
      · rw [outRank_data _ _ hemp, mcell_toMatrix, if_pos ⟨hi, hj⟩, hnone]
        rfl
      · rw [outScore_data _ _ hemp, mcell_toMatrix, if_pos ⟨hi, hj⟩, hnone]
        rfl

/-- Witness for C3: in a one-row table, row `A1C` populates cell (0, 1)
of all three matrices and cell (0, 0) stays at the sentinel. -/
theorem c3_witness :
    ((mcell (outZ (prepareHeatmap exB none)) 0 1).isSome = true ∧
     (mcell (outRank (prepareHeatmap exB none)) 0 1).isSome = true ∧
     (mcell (outScore (prepareHeatmap exB none)) 0 1).isSome = true) ∧
    (mcell (outZ (prepareHeatmap exB none)) 0 0 = none ∧
     mcell (outRank (prepareHeatmap exB none)) 0 0 = none ∧
     mcell (outScore (prepareHeatmap exB none)) 0 0 = none) :=
  ⟨(c3_matrix_population exB).1 rB (by with_unfolding_all decide) 0 1
      (by with_unfolding_all decide) (by with_unfolding_all decide),
   (c3_matrix_population exB).2 0 0 (by with_unfolding_all decide)
      (by with_unfolding_all decide) (by with_unfolding_all decide)⟩

/-- C5 counterexample: with rows `A1C` then `S1T`, both at position 1, the
produced row label is `S1`: the wild-type letter comes from the
last-observed row (`S`), not the first-observed one (`A`) as claimed. -/
theorem c5_counterexample :
    outYLabels (prepareHeatmap ex5 none) = [['S', '1']] ∧ ('S' : Char) ≠ 'A' :=
  ⟨by with_unfolding_all decide, by decide⟩

/-- C5 amended: for every retained position, the wild-type letter of its
row label is the first character of the LAST row observed at that position
(the dict comprehension of line 158 overwrites in input order). -/
theorem c5_wildtype_last_observed (rows : List MRow) (maxR : Option Nat)
    (i p : Nat) (rl : MRow)
    (hemp : (validRows rows).isEmpty = false)
    (hp : (retainedPositions (validRows rows) maxR).get? i = some p)
    (hl : lastMatch (fun r => rpos r == p)
        (filteredRows (validRows rows) maxR) = some rl) :
    (outYLabels (prepareHeatmap rows maxR)).get? i =
      some (rwt rl :: (Nat.repr p).toList) := by
  rw [outYLabels_data _ _ hemp]
  unfold yLabelsOf
  rw [List.get?_map, hp]
  simp only [Option.map_some']
  unfold wtMapF
  rw [hl]
  rfl

/-- Witness for the amended C5 at the two-row table `ex5`. -/
theorem c5_witness :
    (validRows ex5).isEmpty = false ∧
    (retainedPositions (validRows ex5) none).get? 0 = some 1 ∧
    lastMatch (fun r => rpos r == 1) (filteredRows (validRows ex5) none) =
      some r5S ∧
    (outYLabels (prepareHeatmap ex5 none)).get? 0 =
      some (rwt r5S :: (Nat.repr 1).toList) :=
  ⟨by with_unfolding_all decide, by with_unfolding_all decide,
    by with_unfolding_all decide,
    c5_wildtype_last_observed ex5 none 0 1 r5S (by with_unfolding_all decide)
      (by with_unfolding_all decide) (by with_unfolding_all decide)⟩

/-- C2 counterexample: the heatmap consumer does not fall back to the
first column for the mutation column — on columns `["mutation", "score"]`
it raises `KeyError` (hard-coded `df['mutant']`), while the prompt builder
does fall back to `"mutation"`; and it has no second-column score
fallback — on `["mutant", "value"]` it returns the all-`None` result
instead of using the second column. -/
theorem c2_counterexample :
    heatmapResolveCols ["mutation", "score"] = .keyError ∧
    promptMutantCol ["mutation", "score"] = some "mutation" ∧
    heatmapResolveCols ["mutant", "value"] = .noScore ∧
    promptScoreCol ["mutant", "value"] = some "value" := by
  refine ⟨by decide, by decide, by decide, by decide⟩

/-- C2 amended: the prompt builder resolves the mutation column by exact
`'mutant'` match else first column, and the score column by
`'score'`-substring else second column, returning `none` exactly when no
candidate qualifies; the heatmap consumer instead short-circuits with the
all-`None` result exactly when no `'score'`-substring column exists, and
raises `KeyError` exactly when a score column exists but no column is
named exactly `'mutant'`. -/
theorem c2_column_resolution (df : DataFrame) :
    (heatmapResolveCols df.cols = .noScore ↔ findScoreCol df.cols = none) ∧
    (heatmapResolveCols df.cols = .keyError ↔
      ((findScoreCol df.cols).isSome = true ∧ "mutant" ∉ df.cols)) ∧
    ((generateMutationAiPrompt df).isSome = true ↔
      (df.cols ≠ [] ∧
        ((findScoreCol df.cols).isSome = true ∨ 2 ≤ df.cols.length))) := by
  refine ⟨?_, ?_, ?_⟩
  · unfold heatmapResolveCols
    cases h : findScoreCol df.cols with
    | none => simp
    | some sc =>
      by_cases hm : "mutant" ∈ df.cols
      · simp [hm]
      · simp [hm]
  · unfold heatmapResolveCols
    cases h : findScoreCol df.cols with
    | none => simp
    | some sc =>
      by_cases hm : "mutant" ∈ df.cols
      · simp [hm]
      · simp [hm]
  · unfold generateMutationAiPrompt
    cases hmc : promptMutantCol df.cols with
    | none =>
      have hnil : df.cols = [] := by
        unfold promptMutantCol at hmc
        by_cases hm : "mutant" ∈ df.cols
        · rw [if_pos hm] at hmc
          cases hmc
        · rw [if_neg hm] at hmc
          exact List.head?_eq_none_iff.mp hmc
      simp [hnil, findScoreCol]
    | some mc =>
      have hne : df.cols ≠ [] := by
        intro h
        unfold promptMutantCol at hmc
        rw [h] at hmc
        simp at hmc
      cases hsc : promptScoreCol df.cols with
      | none =>
        unfold promptScoreCol at hsc
        cases hf : findScoreCol df.cols with
        | some sc =>
          rw [hf] at hsc
          cases hsc
        | none =>
          rw [hf] at hsc
          have hlen : df.cols.length < 2 := by
            rcases Nat.lt_or_ge df.cols.length 2 with h | h
            · exact h
            · exfalso
              have : df.cols.get? 1 ≠ none := by
                rw [ne_eq, List.get?_eq_none]
                omega
              exact this hsc
          show (none : Option PromptSummary).isSome = true ↔ _
          simp only [Option.isSome_none, Bool.false_eq_true, false_iff]
          intro hcontra
          rcases hcontra.2 with ha | hb
          · exact ha
          · omega
      | some sc =>
        simp only []
        constructor
        · intro _
          refine ⟨hne, ?_⟩
          unfold promptScoreCol at hsc
          cases hf : findScoreCol df.cols with
          | some sc2 => simp [hf]
          | none =>
            rw [hf] at hsc
            right
            obtain ⟨hlt, _⟩ := List.get?_eq_some.mp hsc
            omega
        · intro _
          rfl

/-- C8: when the prompt builder resolves both columns, a table with fewer
than 5 rows yields all rows as the top slice and the explicit `"N/A"`
bottom marker; a table with at least 5 rows yields top and bottom slices
of exactly `max 1 (floor of 5% of the row count)` rows each. -/
theorem c8_prompt_slices (df : DataFrame) (s : PromptSummary)
    (h : generateMutationAiPrompt df = some s) :
    (df.rows.length < 5 → s.top.length = df.rows.length ∧ s.bottom = .na) ∧
    (5 ≤ df.rows.length →
      s.top.length = max 1 (df.rows.length * 5 / 100) ∧
      ∃ bs, s.bottom = .rows bs ∧
        bs.length = max 1 (df.rows.length * 5 / 100)) := by
  unfold generateMutationAiPrompt at h
  cases hmc : promptMutantCol df.cols with
  | none =>
    rw [hmc] at h
    cases h
  | some mc =>
    rw [hmc] at h
    cases hsc : promptScoreCol df.cols with
    | none =>
      rw [hsc] at h
      cases h
    | some sc =>
      rw [hsc] at h
      have hs := Option.some.inj h
      subst hs
      constructor
      · intro hlt
        constructor
        · simp only [List.length_map, List.length_take, topCount, if_pos hlt]
          omega
        · have hlc : lowestCount df.rows.length = 0 := by
            simp [lowestCount, hlt]
          have hlow : lowestRows df.rows = [] := by
            simp [lowestRows, hlc]
          simp [hlow]
      · intro hge
        have hnlt : ¬ df.rows.length < 5 := by omega
        have hdivle : df.rows.length * 5 / 100 ≤ df.rows.length := by
          calc df.rows.length * 5 / 100 ≤ df.rows.length * 5 / 5 :=
                Nat.div_le_div_left (by norm_num) (by norm_num)
            _ = df.rows.length := by omega
        have htc : topCount df.rows.length = max 1 (df.rows.length * 5 / 100) := by
          simp [topCount, hnlt]
        have hlc : lowestCount df.rows.length = max 1 (df.rows.length * 5 / 100) := by
          simp [lowestCount, hnlt]
        have hlcpos : 0 < lowestCount df.rows.length := by
          rw [hlc]
          have := Nat.le_max_left 1 (df.rows.length * 5 / 100)
          omega
        have hlcle : lowestCount df.rows.length ≤ df.rows.length := by
          rw [hlc]
          exact max_le (by omega) hdivle
        constructor
        · simp only [List.length_map, List.length_take, htc]
          have h1 : (1 : Nat) ≤ df.rows.length := by omega
          rw [Nat.min_eq_left (max_le h1 hdivle)]
        · have hlow : lowestRows df.rows =
              df.rows.drop (df.rows.length - lowestCount df.rows.length) := by
            simp [lowestRows, hlcpos]
          have hlowlen : (lowestRows df.rows).length = lowestCount df.rows.length := by
            rw [hlow, List.length_drop]
            omega
          have hlowne : lowestRows df.rows ≠ [] := by
            intro hh
            rw [hh] at hlowlen
            simp at hlowlen
            omega
          have hie : (lowestRows df.rows).isEmpty = false := by
            cases hie2 : (lowestRows df.rows).isEmpty
            · rfl
            · rw [List.isEmpty_iff] at hie2
              exact absurd hie2 hlowne
          refine ⟨(lowestRows df.rows).map
              (fun r => (cellD r ((findIdxA mc df.cols).getD 0),
                         cellD r ((findIdxA sc df.cols).getD 0))), ?_, ?_⟩
          · simp [hie]
          · rw [List.length_map, hlowlen, hlc]

/-- Witness for C8: the 100-row table yields exactly 5 top and 5 bottom
rows, and the 3-row table yields all 3 rows on top with the `"N/A"`
bottom marker. -/
theorem c8_witness :
    generateMutationAiPrompt ex100 = some s100 ∧
    s100.top.length = max 1 (ex100.rows.length * 5 / 100) ∧
    s100.top.length = 5 ∧
    generateMutationAiPrompt ex3 = some s3 ∧
    s3.top.length = ex3.rows.length ∧ s3.bottom = .na :=
  ⟨by with_unfolding_all decide,
    ((c8_prompt_slices ex100 s100 (by with_unfolding_all decide)).2
      (by with_unfolding_all decide)).1,
    by with_unfolding_all decide,
    by with_unfolding_all decide,
    ((c8_prompt_slices ex3 s3 (by with_unfolding_all decide)).1
      (by with_unfolding_all decide)).1,
    ((c8_prompt_slices ex3 s3 (by with_unfolding_all decide)).1
      (by with_unfolding_all decide)).2⟩

/-- C9: credential resolution returns the stripped caller key when it is
non-blank, else the provider's environment variable when set non-empty;
and when no key resolves at all, the AI summary is exactly the no-key
placeholder and the bundle mapping holds only the CSV and heatmap
entries, excluding the AI report. -/
theorem c9_credential_and_bundle (env : String → Option String)
    (p k resp : String) :
    (pyStrip k ≠ "" → getApiKey env p k = some (pyStrip k)) ∧
    (pyStrip k = "" → ∀ name v, envVarMap p = some name → env name = some v →
      v ≠ "" → getApiKey env p k = some v) ∧
    (getApiKey env p k = none →
      aiSummaryOf env true p k resp = noKeyPlaceholder ∧
      bundleEntries (aiSummaryOf env true p k resp) =
        ["prediction_results.csv", "prediction_heatmap.html"]) := by
  refine ⟨?_, ?_, ?_⟩
  · intro h
    unfold getApiKey
    rw [if_pos h]
  · intro h name v hn hv hne
    unfold getApiKey
    rw [if_neg (by simp [h]), hn]
    show (match env name with
      | some v => if v ≠ "" then some v else none
      | none => none) = some v
    rw [hv]
    show (if v ≠ "" then some v else none) = some v
    rw [if_pos hne]
  · intro h
    have hsum : aiSummaryOf env true p k resp = noKeyPlaceholder := by
      unfold aiSummaryOf
      rw [if_pos rfl, h]
    refine ⟨hsum, ?_⟩
    rw [hsum]
    decide

/-- Witness for C9: with no environment and a blank caller key the summary
is the placeholder and the bundle holds exactly the CSV and heatmap. -/
theorem c9_witness :
    getApiKey env0 "DeepSeek" "" = none ∧
    aiSummaryOf env0 true "DeepSeek" "" "report text" = noKeyPlaceholder ∧
    bundleEntries (aiSummaryOf env0 true "DeepSeek" "" "report text") =
      ["prediction_results.csv", "prediction_heatmap.html"] :=
  ⟨by decide,
    ((c9_credential_and_bundle env0 "DeepSeek" "" "report text").2.2 (by decide)).1,
    ((c9_credential_and_bundle env0 "DeepSeek" "" "report text").2.2 (by decide)).2⟩

theorem findIdxA_mem {α : Type} [DecidableEq α] (a : α) (l : List α) (i : Nat)
    (h : findIdxA a l = some i) : a ∈ l :=
  List.get?_mem (findIdxA_get a l i h)

theorem heatmapCells_take_agree (rows : List MRow) (k i j : Nat)
    (hi : i < (retainedPositions (validRows rows) (some k)).length) :
    heatmapCells rows (some k) i j = heatmapCells rows none i j := by
  rw [heatmapCells_lookup, heatmapCells_lookup]
  have hfil : filteredRows (validRows rows) (some k) =
      (validRows rows).filter
        (fun r => decide (rpos r ∈ (allPositions (validRows rows)).take k)) := rfl
  have hfn : filteredRows (validRows rows) none = validRows rows := rfl
  rw [hfil, hfn, lastMatch_filter]
  have hik : i < k := by
    unfold retainedPositions at hi
    rw [List.length_take] at hi
    omega
  have hpred : ∀ r : MRow,
      ((findIdxA (rpos r) (retainedPositions (validRows rows) (some k)) == some i &&
          findIdxA (rsub r) xLabels == some j) &&
        decide (rpos r ∈ (allPositions (validRows rows)).take k)) =
      (findIdxA (rpos r) (retainedPositions (validRows rows) none) == some i &&
        findIdxA (rsub r) xLabels == some j) := by
    intro r
    unfold retainedPositions
    by_cases hA : findIdxA (rpos r) ((allPositions (validRows rows)).take k) = some i
    · have hA2 : findIdxA (rpos r) (allPositions (validRows rows)) = some i :=
        ((findIdxA_take _ _ _ _).mp hA).1
      have hmem : rpos r ∈ (allPositions (validRows rows)).take k :=
        findIdxA_mem _ _ _ hA
      simp [hA, hA2, hmem]
    · have hA2 : findIdxA (rpos r) (allPositions (validRows rows)) ≠ some i := by
        intro hc
        exact hA ((findIdxA_take _ _ _ _).mpr ⟨hc, hik⟩)
      have hfA : (findIdxA (rpos r) ((allPositions (validRows rows)).take k) ==
          some i) = false := by
        simp [hA]
      have hfA2 : (findIdxA (rpos r) (allPositions (validRows rows)) ==
          some i) = false := by
        simp [hA2]
      rw [hfA, hfA2]
      simp
  rw [lastMatch_congr _ _ _ hpred]

/-- C6: the partial (first-40-positions) view and the full view are built
from the same table with ranks and bins computed before truncation, so
every cell present in both views carries identical percentile-bin, rank,
and score values. -/
theorem c6_partial_full_agree (rows : List MRow) (i j : Nat)
    (hi : i < (retainedPositions (validRows rows) (some 40)).length)
    (hj : j < xLabels.length) :
    mcell (outZ (prepareHeatmap rows (some 40))) i j =
      mcell (outZ (prepareHeatmap rows none)) i j ∧
    mcell (outRank (prepareHeatmap rows (some 40))) i j =
      mcell (outRank (prepareHeatmap rows none)) i j ∧
    mcell (outScore (prepareHeatmap rows (some 40))) i j =
      mcell (outScore (prepareHeatmap rows none)) i j := by
  cases hemp : (validRows rows).isEmpty with
  | true =>
    have h40 : prepareHeatmap rows (some 40) = .emptyData := by
      unfold prepareHeatmap
      rw [if_pos (by simp [hemp])]
    have hfull : prepareHeatmap rows none = .emptyData := by
      unfold prepareHeatmap
      rw [if_pos (by simp [hemp])]
    rw [h40, hfull]
    exact ⟨rfl, rfl, rfl⟩
  | false =>
    have hcells := heatmapCells_take_agree rows 40 i j hi
    have hilen2 : i < (retainedPositions (validRows rows) none).length := by
      have hle : (retainedPositions (validRows rows) (some 40)).length ≤
          (retainedPositions (validRows rows) none).length := by
        show ((allPositions (validRows rows)).take 40).length ≤
          (allPositions (validRows rows)).length
        rw [List.length_take]
        omega
      omega
    refine ⟨?_, ?_, ?_⟩
    · rw [outZ_data _ _ hemp, outZ_data _ _ hemp, mcell_toMatrix, mcell_toMatrix,
        if_pos ⟨hi, hj⟩, if_pos ⟨hilen2, hj⟩, hcells]
    · rw [outRank_data _ _ hemp, outRank_data _ _ hemp, mcell_toMatrix,
        mcell_toMatrix, if_pos ⟨hi, hj⟩, if_pos ⟨hilen2, hj⟩, hcells]
    · rw [outScore_data _ _ hemp, outScore_data _ _ hemp, mcell_toMatrix,
        mcell_toMatrix, if_pos ⟨hi, hj⟩, if_pos ⟨hilen2, hj⟩, hcells]

/-- Witness for C6 at the one-row table: the populated cell (0, 1) agrees
between the capped and uncapped views. -/
theorem c6_witness :
    0 < (retainedPositions (validRows exB) (some 40)).length ∧
    1 < xLabels.length ∧
    mcell (outZ (prepareHeatmap exB (some 40))) 0 1 =
      mcell (outZ (prepareHeatmap exB none)) 0 1 ∧
    mcell (outRank (prepareHeatmap exB (some 40))) 0 1 =
      mcell (outRank (prepareHeatmap exB none)) 0 1 ∧
    mcell (outScore (prepareHeatmap exB (some 40))) 0 1 =
      mcell (outScore (prepareHeatmap exB none)) 0 1 :=
  ⟨by with_unfolding_all decide, by decide,
    c6_partial_full_agree exB 0 1 (by with_unfolding_all decide) (by decide)⟩

theorem perm_isEmpty_eq {α : Type} (l1 l2 : List α) (h : List.Perm l1 l2) :
    l1.isEmpty = l2.isEmpty := by
  have hlen := h.length_eq
  cases l1 with
  | nil =>
    cases l2 with
    | nil => rfl
    | cons b t2 => simp at hlen
  | cons a t =>
    cases l2 with
    | nil => simp at hlen
    | cons b t2 => rfl

theorem allPositions_perm (v1 v2 : List MRow) (h : List.Perm v1 v2) :
    allPositions v1 = allPositions v2 := by
  unfold allPositions
  have h1 : List.Perm ((v1.map rpos).dedup) ((v2.map rpos).dedup) :=
    (h.map rpos).dedup
  have hs1 := List.sorted_insertionSort (· ≤ ·) ((v1.map rpos).dedup)
  have hs2 := List.sorted_insertionSort (· ≤ ·) ((v2.map rpos).dedup)
  have hperm2 : List.Perm (List.insertionSort (· ≤ ·) ((v1.map rpos).dedup))
      (List.insertionSort (· ≤ ·) ((v2.map rpos).dedup)) :=
    ((List.perm_insertionSort _ _).trans h1).trans
      (List.perm_insertionSort _ _).symm
  exact List.eq_of_perm_of_sorted hperm2 hs1 hs2

theorem retainedPositions_perm (v1 v2 : List MRow) (maxR : Option Nat)
    (h : List.Perm v1 v2) :
    retainedPositions v1 maxR = retainedPositions v2 maxR := by
  cases maxR with
  | none => exact allPositions_perm v1 v2 h
  | some k =>
    show (allPositions v1).take k = (allPositions v2).take k
    rw [allPositions_perm v1 v2 h]

theorem filteredRows_perm (v1 v2 : List MRow) (maxR : Option Nat)
    (h : List.Perm v1 v2) :
    List.Perm (filteredRows v1 maxR) (filteredRows v2 maxR) := by
  cases maxR with
  | none => exact h
  | some k =>
    show List.Perm
      (v1.filter (fun r => decide (rpos r ∈ (allPositions v1).take k)))
      (v2.filter (fun r => decide (rpos r ∈ (allPositions v2).take k)))
    rw [allPositions_perm v1 v2 h]
    exact h.filter _

theorem toMatrix_congr (f g : Nat → Nat → Option ℚ) (n m : Nat)
    (h : ∀ i j, f i j = g i j) : toMatrix f n m = toMatrix g n m := by
  have : f = g := funext (fun i => funext (h i))
  rw [this]

/-- C10: when all valid rows at a position agree on the wild-type letter
and no two valid rows address the same (position, substitution) pair, the
entire heatmap output — labels and all three matrices — is invariant
under any permutation of the input rows, for any cap. -/
theorem c10_permutation_invariance (rows1 rows2 : List MRow) (maxR : Option Nat)
    (hperm : List.Perm rows1 rows2)
    (hwt : wtConsistent rows1) (hdist : pairsDistinct rows1) :
    prepareHeatmap rows1 maxR = prepareHeatmap rows2 maxR := by
  have hv : List.Perm (validRows rows1) (validRows rows2) := hperm.filter rvalid
  have hlen : (validRows rows1).length = (validRows rows2).length := hv.length_eq
  have hpos : allPositions (validRows rows1) = allPositions (validRows rows2) :=
    allPositions_perm _ _ hv
  have hret : retainedPositions (validRows rows1) maxR =
      retainedPositions (validRows rows2) maxR := retainedPositions_perm _ _ _ hv
  have hfil : List.Perm (filteredRows (validRows rows1) maxR)
      (filteredRows (validRows rows2) maxR) := filteredRows_perm _ _ _ hv
  have hrank : ∀ s : ℚ, rankOf (scoresOf (validRows rows1)) s =
      rankOf (scoresOf (validRows rows2)) s := by
    intro s
    unfold rankOf scoresOf
    rw [((hv.map _).filter _).length_eq]
  have hrowval : ∀ r : MRow, rowVal (validRows rows1) r =
      rowVal (validRows rows2) r := by
    intro r
    unfold rowVal
    rw [hlen, hrank r.score]
  have hrv : rowVal (validRows rows1) = rowVal (validRows rows2) :=
    funext hrowval
  have hcells : ∀ i j, heatmapCells rows1 maxR i j = heatmapCells rows2 maxR i j := by
    intro i j
    rw [heatmapCells_lookup, heatmapCells_lookup, hret, hrv]
    cases hl1 : lastMatch (fun r =>
        findIdxA (rpos r) (retainedPositions (validRows rows2) maxR) == some i &&
        findIdxA (rsub r) xLabels == some j)
        (filteredRows (validRows rows1) maxR) with
    | none =>
      have hl2 : lastMatch (fun r =>
          findIdxA (rpos r) (retainedPositions (validRows rows2) maxR) == some i &&
          findIdxA (rsub r) xLabels == some j)
          (filteredRows (validRows rows2) maxR) = none := by
        rw [lastMatch_eq_none] at hl1 ⊢
        intro a ha
        exact hl1 a (hfil.mem_iff.mpr ha)
      rw [hl2]
    | some r1 =>
      have h1 := lastMatch_mem _ _ _ hl1
      have hsome2 := lastMatch_isSome_of_mem (fun r =>
          findIdxA (rpos r) (retainedPositions (validRows rows2) maxR) == some i &&
          findIdxA (rsub r) xLabels == some j) _ _
        (hfil.mem_iff.mp h1.1) h1.2
      obtain ⟨r2, hl2⟩ := Option.isSome_iff_exists.mp hsome2
      have h2 := lastMatch_mem _ _ _ hl2
      rw [hl2]
      have hr1v : r1 ∈ validRows rows1 := mem_filteredRows _ _ _ h1.1
      have hr2v : r2 ∈ validRows rows1 :=
        hv.mem_iff.mpr (mem_filteredRows _ _ _ h2.1)
      simp only [Bool.and_eq_true, beq_iff_eq] at h1 h2
      have hpos12 : rpos r1 = rpos r2 := by
        have g1 := findIdxA_get _ _ _ h1.2.1
        have g2 := findIdxA_get _ _ _ h2.2.1
        rw [g1] at g2
        exact Option.some.inj g2
      have hsub12 : rsub r1 = rsub r2 := by
        have g1 := findIdxA_get _ _ _ h1.2.2
        have g2 := findIdxA_get _ _ _ h2.2.2
        rw [g1] at g2
        exact Option.some.inj g2
      have hr12 : r1 = r2 := by
        by_contra hne
        have hsym : Symmetric (fun r s : MRow =>
            ¬(rpos r = rpos s ∧ rsub r = rsub s)) := by
          intro a b hab hc
          exact hab ⟨hc.1.symm, hc.2.symm⟩
        exact (hdist.forall hsym hr1v hr2v hne) ⟨hpos12, hsub12⟩
      rw [hr12]
  have hempeq : (validRows rows1).isEmpty = (validRows rows2).isEmpty :=
    perm_isEmpty_eq _ _ hv
  cases hemp : (validRows rows1).isEmpty with
  | true =>
    have hemp2 : (validRows rows2).isEmpty = true := by
      rw [← hempeq]
      exact hemp
    unfold prepareHeatmap
    rw [if_pos (by simp [hemp]), if_pos (by simp [hemp2])]
  | false =>
    have hemp2 : (validRows rows2).isEmpty = false := by
      rw [← hempeq]
      exact hemp
    unfold prepareHeatmap
    rw [if_neg (by simp [hemp]), if_neg (by simp [hemp2])]
    simp only [HeatmapOut.data.injEq, HeatmapData.mk.injEq]
    refine ⟨trivial, ?_, ?_, ?_, ?_⟩
    · unfold yLabelsOf
      rw [hret]
      apply List.map_congr_left
      intro p hp
      unfold wtMapF
      cases hl1 : lastMatch (fun r => rpos r == p)
          (filteredRows (validRows rows1) maxR) with
      | none =>
        have hl2 : lastMatch (fun r => rpos r == p)
            (filteredRows (validRows rows2) maxR) = none := by
          rw [lastMatch_eq_none] at hl1 ⊢
          intro a ha
          exact hl1 a (hfil.mem_iff.mpr ha)
        rw [hl2]
      | some r1 =>
        have h1 := lastMatch_mem _ _ _ hl1
        have hsome2 := lastMatch_isSome_of_mem (fun r => rpos r == p) _ _
          (hfil.mem_iff.mp h1.1) h1.2
        obtain ⟨r2, hl2⟩ := Option.isSome_iff_exists.mp hsome2
        have h2 := lastMatch_mem _ _ _ hl2
        rw [hl2]
        have hr1v : r1 ∈ validRows rows1 := mem_filteredRows _ _ _ h1.1
        have hr2v : r2 ∈ validRows rows1 :=
          hv.mem_iff.mpr (mem_filteredRows _ _ _ h2.1)
        have hp1 : rpos r1 = p := by simpa using h1.2
        have hp2 : rpos r2 = p := by simpa using h2.2
        have hwteq := hwt r1 hr1v r2 hr2v (by rw [hp1, hp2])
        simp [hwteq]
    · rw [hret]
      exact toMatrix_congr _ _ _ _ (fun i j => by rw [hcells i j])
    · rw [hret]
      exact toMatrix_congr _ _ _ _ (fun i j => by rw [hcells i j])
    · rw [hret]
      exact toMatrix_congr _ _ _ _ (fun i j => by rw [hcells i j])

/-- Witness for C10: swapping the two position-1 rows of the scenario-A
table leaves the whole heatmap output unchanged. -/
theorem c10_witness :
    List.Perm exA exASwap ∧ wtConsistent exA ∧ pairsDistinct exA ∧
    prepareHeatmap exA none = prepareHeatmap exASwap none :=
  ⟨by with_unfolding_all decide,
    by unfold wtConsistent; with_unfolding_all decide,
    by unfold pairsDistinct; with_unfolding_all decide,
    c10_permutation_invariance exA exASwap none (by with_unfolding_all decide)
      (by unfold wtConsistent; with_unfolding_all decide)
      (by unfold pairsDistinct; with_unfolding_all decide)⟩
